import Mathlib

/-!
Verification of the error-logger data-access layer (src/app.py).

The program stores two SQLite tables, environments and errors, and exposes
four data-access functions (get_or_create_environment, save_error,
get_all_errors, get_errors_by_environment) plus a form-driven UI whose
submit handler validates required fields and whose Search and Filter page
filters the listed records.

The embedding below models:
  - the two tables as lists of rows, with the AUTOINCREMENT id counters
    carried explicitly and CURRENT_TIMESTAMP passed in as a Nat parameter;
  - json.dumps of a list of strings / of a string-to-string mapping with
    sort_keys=True (escape handling for quote, backslash, newline, tab,
    carriage return, backspace and form feed; the \\uXXXX escapes that
    json.dumps applies to other control and non-ASCII characters are not
    modelled);
  - json.loads of a list of strings as an executable decoder returning
    Option, where none models the json.JSONDecodeError exception;
  - ORDER BY created_at DESC as a stable insertion sort (SQLite returns
    tied rows in table-scan order, i.e. insertion order);
  - pandas Series.str.contains with its default regex=True as a matcher
    for the regular-expression fragment actually expressible in the model:
    literal characters and the metacharacter dot matching any character.
-/

namespace ErrorLogger

/-! ### JSON text model (json.dumps / json.loads for the serialized fields) -/

/-- JSON whitespace characters accepted by json.loads between tokens. -/
def jsonWs (c : Char) : Bool :=
  c = ' ' || c = '\t' || c = '\n' || c = '\r'

/-- Drop leading JSON whitespace. -/
def skipWs (cs : List Char) : List Char :=
  cs.dropWhile jsonWs

/-- Escape of a single character inside a JSON string, as json.dumps emits it. -/
def escapeChar (c : Char) : List Char :=
  if c = '"' then ['\\', '"']
  else if c = '\\' then ['\\', '\\']
  else if c = '\n' then ['\\', 'n']
  else if c = '\t' then ['\\', 't']
  else if c = '\r' then ['\\', 'r']
  else if c = '\x08' then ['\\', 'b']
  else if c = '\x0C' then ['\\', 'f']
  else [c]

/-- Escape every character of a string body. -/
def escList : List Char → List Char
  | [] => []
  | c :: cs => escapeChar c ++ escList cs

/-- A JSON string literal: quote, escaped body, quote. -/
def encStr (s : String) : List Char :=
  '"' :: (escList s.data ++ ['"'])

/-- The comma-space separated items of a JSON array of strings
(json.dumps uses the separator comma-space by default). -/
def encItems : List String → List Char
  | [] => []
  | [t] => encStr t
  | t :: ts => encStr t ++ (',' :: ' ' :: encItems ts)

/-- json.dumps of a list of strings. -/
def encodeTags (ts : List String) : String :=
  String.mk ('[' :: (encItems ts ++ [']']))

/-- Inverse of a single-character escape code, as json.loads reads it
(the \\uXXXX form is not modelled). -/
def unescapeChar (c : Char) : Option Char :=
  if c = '"' then some '"'
  else if c = '\\' then some '\\'
  else if c = '/' then some '/'
  else if c = 'n' then some '\n'
  else if c = 't' then some '\t'
  else if c = 'r' then some '\r'
  else if c = 'b' then some '\x08'
  else if c = 'f' then some '\x0C'
  else none

/-- Parse the body of a JSON string literal after its opening quote;
returns the decoded characters and the remaining input.  none models a
json.JSONDecodeError. -/
def parseStr : List Char → Option (List Char × List Char)
  | [] => none
  | c :: rest =>
    if c = '"' then some ([], rest)
    else if c = '\\' then
      match rest with
      | [] => none
      | d :: rest2 =>
        match unescapeChar d, parseStr rest2 with
        | some u, some (s, r) => some (u :: s, r)
        | _, _ => none
    else
      match parseStr rest with
      | some (s, r) => some (c :: s, r)
      | none => none

/-- Parse one or more comma-separated JSON string items followed by a
closing bracket.  Fuel bounds the number of items. -/
def parseItems : Nat → List Char → Option (List (List Char) × List Char)
  | 0, _ => none
  | fuel + 1, cs =>
    match skipWs cs with
    | [] => none
    | c :: rest =>
      if c = '"' then
        match parseStr rest with
        | none => none
        | some (s, r2) =>
          match skipWs r2 with
          | ']' :: r4 => some ([s], r4)
          | ',' :: r4 =>
            match parseItems fuel r4 with
            | some (ss, r5) => some (s :: ss, r5)
            | none => none
          | _ => none
      else none

/-- json.loads of a JSON array of strings; none models the raised
json.JSONDecodeError on malformed input. -/
def decodeTags (s : String) : Option (List String) :=
  match skipWs s.data with
  | '[' :: rest =>
    match skipWs rest with
    | ']' :: r2 => if skipWs r2 = [] then some [] else none
    | _ =>
      match parseItems (rest.length + 1) rest with
      | some (ss, r) =>
        if skipWs r = [] then some (ss.map (fun l => String.mk l)) else none
      | none => none
  | _ => none

/-! ### Module-set encoding (json.dumps(modules, sort_keys=True)) -/

/-- Key order used by sort_keys=True: compare the (package-name) keys. -/
def keyRel (a b : String × String) : Prop := a.1 ≤ b.1

instance keyRelDecidable : DecidableRel keyRel := fun a b =>
  inferInstanceAs (Decidable (a.1 ≤ b.1))

instance keyRelTotal : IsTotal (String × String) keyRel :=
  ⟨fun a b => le_total a.1 b.1⟩

instance keyRelTrans : IsTrans (String × String) keyRel :=
  ⟨fun _ _ _ h1 h2 => le_trans h1 h2⟩

/-- Strict key order, used to state that a sorted duplicate-free key list
is unique. -/
def keyLt (a b : String × String) : Prop := a.1 < b.1

instance keyLtAntisymm : IsAntisymm (String × String) keyLt :=
  ⟨fun _ _ h1 h2 => absurd h2 (lt_asymm h1)⟩

/-- The comma-space separated members of a JSON object, each rendered as
key, colon, space, value (json.dumps default separators). -/
def encPairs : List (String × String) → List Char
  | [] => []
  | [p] => encStr p.1 ++ (':' :: ' ' :: encStr p.2)
  | p :: ps => encStr p.1 ++ (':' :: ' ' :: encStr p.2) ++ (',' :: ' ' :: encPairs ps)

/-- json.dumps(modules, sort_keys=True): the mapping is rendered as a JSON
object after sorting its entries by key. -/
def encodeModules (modules : List (String × String)) : String :=
  String.mk ('\x7b' :: (encPairs (List.insertionSort keyRel modules) ++ ['\x7d']))

/-! ### Data model: the two tables of init_db -/

/-- One row of the environments table. -/
structure EnvRow where
  id : Nat
  python_version : String
  platform : Option String
  modules : Option String
  created_at : Nat
deriving DecidableEq, Repr

/-- One row of the errors table. -/
structure ErrRow where
  id : Nat
  error_name : String
  description : Option String
  error_type : Option String
  traceback : Option String
  fix : Option String
  complexity : Option String
  status : Option String
  tags : Option String
  environment_id : Option Nat
  created_at : Nat
  updated_at : Nat
deriving DecidableEq, Repr

/-- The database: both tables plus the AUTOINCREMENT counters.  Rows are
kept in insertion (rowid) order. -/
structure DB where
  environments : List EnvRow
  errors : List ErrRow
  nextEnvId : Nat
  nextErrId : Nat
deriving DecidableEq, Repr

/-- init_db: creates the two empty tables; AUTOINCREMENT ids start at 1. -/
def init_db : DB :=
  { environments := [], errors := [], nextEnvId := 1, nextErrId := 1 }

/-- The dictionary built by get_current_environment. -/
structure EnvInfo where
  python_version : String
  platform : String
  modules : String
deriving DecidableEq, Repr

/-- get_current_environment: the ambient interpreter version, platform
string and installed-package mapping are external-world inputs, taken here
as parameters; the module mapping is serialized with sort_keys=True. -/
def get_current_environment (pythonVersion platformDesc : String)
    (installed : List (String × String)) : EnvInfo :=
  { python_version := pythonVersion
    platform := platformDesc
    modules := encodeModules installed }

/-- The row predicate of the SELECT in get_or_create_environment:
python_version = ? AND modules = ?.  A SQL comparison with a NULL modules
column is not true, hence the comparison against some. -/
def envMatches (pv m : String) (r : EnvRow) : Bool :=
  decide (r.python_version = pv ∧ r.modules = some m)

/-- get_or_create_environment: look up a row with the same
(python_version, modules) pair; if found return its id, otherwise insert a
new row (python_version, platform, modules, CURRENT_TIMESTAMP) and return
the fresh id. -/
def get_or_create_environment (info : EnvInfo) (now : Nat) (db : DB) :
    Nat × DB :=
  match db.environments.find? (envMatches info.python_version info.modules) with
  | some r => (r.id, db)
  | none =>
    (db.nextEnvId,
      { db with
          environments := db.environments ++
            [{ id := db.nextEnvId
               python_version := info.python_version
               platform := some info.platform
               modules := some info.modules
               created_at := now }]
          nextEnvId := db.nextEnvId + 1 })

/-- The error_data dictionary passed to save_error.  Optional dictionary
keys are Option fields; tags is the list built by the form (an absent key
behaves like the empty list in save_error's truthiness test). -/
structure ErrorData where
  error_name : String
  description : Option String
  error_type : Option String
  traceback : Option String
  fix : Option String
  complexity : Option String
  status : Option String
  tags : List String
  environment_id : Option Nat
deriving DecidableEq, Repr

/-- save_error: tags_str is json.dumps(tags) when tags is truthy
(non-empty) and NULL otherwise; one row is appended with
status defaulting to Open (error_data.get with default) and both
timestamp columns set to CURRENT_TIMESTAMP. -/
def save_error (d : ErrorData) (now : Nat) (db : DB) : DB :=
  { db with
      errors := db.errors ++
        [{ id := db.nextErrId
           error_name := d.error_name
           description := d.description
           error_type := d.error_type
           traceback := d.traceback
           fix := d.fix
           complexity := d.complexity
           status := some (d.status.getD "Open")
           tags := if d.tags = [] then none else some (encodeTags d.tags)
           environment_id := d.environment_id
           created_at := now
           updated_at := now }]
      nextErrId := db.nextErrId + 1 }

/-! ### The read queries -/

/-- ORDER BY created_at DESC: a row precedes another when its timestamp is
at least as large; the sort is stable, so rows with equal timestamps stay
in table (insertion) order, which is what SQLite's scan produces. -/
def errRel (a b : ErrRow) : Prop := b.created_at ≤ a.created_at

instance errRelDecidable : DecidableRel errRel := fun a b =>
  inferInstanceAs (Decidable (b.created_at ≤ a.created_at))

instance errRelTotal : IsTotal ErrRow errRel :=
  ⟨fun a b => le_total b.created_at a.created_at⟩

instance errRelTrans : IsTrans ErrRow errRel :=
  ⟨fun _ _ _ h1 h2 => le_trans h2 h1⟩

/-- The ORDER BY created_at DESC result order. -/
def sortErrors (l : List ErrRow) : List ErrRow :=
  List.insertionSort errRel l

/-- LEFT JOIN environments env ON e.environment_id = env.id: look the
referenced environment up by id (a NULL foreign key joins nothing). -/
def lookupEnv (envs : List EnvRow) (oid : Option Nat) : Option EnvRow :=
  match oid with
  | none => none
  | some i => envs.find? (fun e => decide (e.id = i))

/-- The tags post-processing applied per row by both listing queries:
json.loads(x) if x else [] — a NULL or empty tags cell becomes the empty
list, anything else is decoded and a decode failure propagates (models the
raised exception). -/
def decodeTagsField : Option String → Option (List String)
  | none => some []
  | some s => if s = "" then some [] else decodeTags s

/-- One result row of get_all_errors: the errors columns, the decoded
tags, and the two joined environment columns.  The environment_id column
itself is not selected. -/
structure AllRow where
  id : Nat
  error_name : String
  description : Option String
  error_type : Option String
  traceback : Option String
  fix : Option String
  complexity : Option String
  status : Option String
  tags : List String
  created_at : Nat
  updated_at : Nat
  python_version : Option String
  platform : Option String
deriving DecidableEq, Repr

/-- One result row of get_errors_by_environment: the errors columns and
the decoded tags; no environment metadata is re-joined. -/
structure ByEnvRow where
  id : Nat
  error_name : String
  description : Option String
  error_type : Option String
  traceback : Option String
  fix : Option String
  complexity : Option String
  status : Option String
  tags : List String
  created_at : Nat
  updated_at : Nat
deriving DecidableEq, Repr

/-- Sequence an Option-returning function over a list; none models an
exception raised while processing any element (pandas apply aborting the
whole read). -/
def optionMapList (f : α → Option β) : List α → Option (List β)
  | [] => some []
  | x :: xs =>
    match f x, optionMapList f xs with
    | some y, some ys => some (y :: ys)
    | _, _ => none

/-- Build one get_all_errors result row from a stored row (tag decoding
may fail). -/
def allRowOf (envs : List EnvRow) (r : ErrRow) : Option AllRow :=
  (decodeTagsField r.tags).map (fun tg =>
    { id := r.id
      error_name := r.error_name
      description := r.description
      error_type := r.error_type
      traceback := r.traceback
      fix := r.fix
      complexity := r.complexity
      status := r.status
      tags := tg
      created_at := r.created_at
      updated_at := r.updated_at
      python_version := (lookupEnv envs r.environment_id).map EnvRow.python_version
      platform := (lookupEnv envs r.environment_id).bind EnvRow.platform })

/-- get_all_errors: every error row, newest first, left-joined with the
environment columns, with tags deserialized. -/
def get_all_errors (db : DB) : Option (List AllRow) :=
  optionMapList (allRowOf db.environments) (sortErrors db.errors)

/-- Build one get_errors_by_environment result row from a stored row. -/
def byEnvRowOf (r : ErrRow) : Option ByEnvRow :=
  (decodeTagsField r.tags).map (fun tg =>
    { id := r.id
      error_name := r.error_name
      description := r.description
      error_type := r.error_type
      traceback := r.traceback
      fix := r.fix
      complexity := r.complexity
      status := r.status
      tags := tg
      created_at := r.created_at
      updated_at := r.updated_at })

/-- get_errors_by_environment: WHERE e.environment_id = ? then
ORDER BY created_at DESC, with tags deserialized. -/
def get_errors_by_environment (envId : Nat) (db : DB) : Option (List ByEnvRow) :=
  optionMapList byEnvRowOf
    (sortErrors (db.errors.filter (fun r => decide (r.environment_id = some envId))))

/-! ### The Log Error form submit handler -/

/-- The widget values of the Log Error form.  Streamlit text inputs yield
strings (empty when left blank); the two selectboxes always hold one of
their fixed choices. -/
structure FormInput where
  error_name : String
  error_type : String
  complexity : String
  status : String
  tags_input : String
  description : String
  traceback : String
  fix : String
deriving DecidableEq, Repr

/-- The submit branch of the Log Error page: if error_name or description
is falsy (empty) an error message is shown and nothing is written;
otherwise tags_input is split on commas and stripped, the error_data
dictionary is built (blank optional text fields become None) and
save_error is called.  The returned Bool is whether validation passed. -/
def log_error_submit (f : FormInput) (envId : Option Nat) (now : Nat)
    (db : DB) : Bool × DB :=
  if f.error_name = "" ∨ f.description = "" then (false, db)
  else
    (true,
      save_error
        { error_name := f.error_name
          description := some f.description
          error_type := if f.error_type = "" then none else some f.error_type
          traceback := if f.traceback = "" then none else some f.traceback
          fix := if f.fix = "" then none else some f.fix
          complexity := some f.complexity
          status := some f.status
          tags := if f.tags_input = ""
            then []
            else (f.tags_input.splitOn ",").map (fun t => t.trim)
          environment_id := envId } now db)

/-! ### The Search and Filter page -/

/-- The search term as the regular-expression pattern pandas
Series.str.contains compiles by default (regex=True): the model covers the
fragment of literal characters plus the dot metacharacter (any single
character); none stands for dot. -/
def patOf (term : String) : List (Option Char) :=
  term.data.map (fun c => if c = '.' then none else some c)

/-- One pattern token against one character. -/
def tokMatches : Option Char → Char → Bool
  | none, _ => true
  | some l, c => l = c

/-- Match the whole pattern at the start of the text. -/
def matchesAt : List (Option Char) → List Char → Bool
  | [], _ => true
  | _ :: _, [] => false
  | t :: ts, c :: cs => tokMatches t c && matchesAt ts cs

/-- re.search: try the pattern at every position, including the end. -/
def regexSearch (p : List (Option Char)) : List Char → Bool
  | [] => matchesAt p []
  | c :: cs => matchesAt p (c :: cs) || regexSearch p cs

/-- Series.str.contains(term, case=False): the pattern is searched
case-insensitively (both sides lowercased in the model). -/
def strContainsCI (s term : String) : Bool :=
  regexSearch (patOf term) (s.data.map Char.toLower)

/-- The same test on a nullable column with na=False: a NULL cell never
matches. -/
def optContainsCI (d : Option String) (term : String) : Bool :=
  match d with
  | some s => strContainsCI s term
  | none => false

/-- Series.isin(selection) on a nullable column: exact membership, NULL
never matches. -/
def isinSel (v : Option String) (sel : List String) : Bool :=
  match v with
  | some s => sel.contains s
  | none => false

/-- The filter pipeline of the Search and Filter page: the name-or-
description search mask is applied only when the term is truthy
(non-empty), and each multiselect filter only when its selection is a
non-empty list. -/
def applyFilters (term : String) (fStatus fComplexity : List String)
    (rows : List AllRow) : List AllRow :=
  let r1 := if term ≠ ""
    then rows.filter (fun r =>
      strContainsCI r.error_name term || optContainsCI r.description term)
    else rows
  let r2 := if fStatus ≠ []
    then r1.filter (fun r => isinSel r.status fStatus)
    else r1
  if fComplexity ≠ []
    then r2.filter (fun r => isinSel r.complexity fComplexity)
    else r2

/-! ### Spec-side definitions (from the specification's words, for
comparison with the code) -/

/-- From the spec: the search term is a case-insensitive SUBSTRING of the
record's name or of its description. -/
def specSubstrKeep (term : String) (r : AllRow) : Prop :=
  term.data.map Char.toLower <:+: r.error_name.data.map Char.toLower ∨
    (match r.description with
     | some d => term.data.map Char.toLower <:+: d.data.map Char.toLower
     | none => False)

/-- The record predicate the filter pipeline actually implements: the term
is a regular-expression pattern searched in name or description (an empty
term matches everything), and each of the two selections is either empty
(no restriction) or an exact-membership test. -/
def amendedKeep (term : String) (fStatus fComplexity : List String)
    (r : AllRow) : Bool :=
  (strContainsCI r.error_name term || optContainsCI r.description term) &&
    (decide (fStatus = []) || isinSel r.status fStatus) &&
    (decide (fComplexity = []) || isinSel r.complexity fComplexity)

/-! ### Invariants and auxiliary predicates -/

/-- The uniqueness invariant of the environments table: no two rows share
the same (python_version, modules) pair. -/
def EnvUniq (db : DB) : Prop :=
  db.environments.Pairwise
    (fun r1 r2 => ¬(r1.python_version = r2.python_version ∧ r1.modules = r2.modules))

/-- A stored tags cell as save_error produces it: NULL or the JSON
serialization of some list. -/
def WfTags (r : ErrRow) : Prop :=
  r.tags = none ∨ ∃ ts : List String, r.tags = some (encodeTags ts)

/-- The projection from a get_all_errors result row to the column set of
get_errors_by_environment (drop the two joined environment columns). -/
def stripEnvMeta (r : AllRow) : ByEnvRow :=
  { id := r.id
    error_name := r.error_name
    description := r.description
    error_type := r.error_type
    traceback := r.traceback
    fix := r.fix
    complexity := r.complexity
    status := r.status
    tags := r.tags
    created_at := r.created_at
    updated_at := r.updated_at }

/-- Equality of every stored error column except environment_id. -/
def SameButEnv (r1 r2 : ErrRow) : Prop :=
  r1.id = r2.id ∧ r1.error_name = r2.error_name ∧
    r1.description = r2.description ∧ r1.error_type = r2.error_type ∧
    r1.traceback = r2.traceback ∧ r1.fix = r2.fix ∧
    r1.complexity = r2.complexity ∧ r1.status = r2.status ∧
    r1.tags = r2.tags ∧ r1.created_at = r2.created_at ∧
    r1.updated_at = r2.updated_at

/-- The environment metadata a row contributes to the get_all_errors
output: the joined python_version and platform. -/
def envMetaOf (envs : List EnvRow) (oid : Option Nat) :
    Option String × Option String :=
  ((lookupEnv envs oid).map EnvRow.python_version,
   (lookupEnv envs oid).bind EnvRow.platform)

/-! ### Concrete example inputs used by witnesses and counterexamples -/

/-- A concrete environment snapshot. -/
def exInfo : EnvInfo :=
  { python_version := "3.11.4"
    platform := "Linux-6.1-x86_64"
    modules := encodeModules [("pandas", "2.0.1")] }

/-- The same snapshot observed on a different platform. -/
def exInfo2 : EnvInfo :=
  { python_version := "3.11.4"
    platform := "Windows-10"
    modules := encodeModules [("pandas", "2.0.1")] }

/-- An error record created at time 5 with no tags. -/
def exOldErr : ErrRow :=
  { id := 1, error_name := "old error", description := some "earlier"
    error_type := none, traceback := none, fix := none
    complexity := some "Low", status := some "Open", tags := none
    environment_id := none, created_at := 5, updated_at := 5 }

/-- A database holding only exOldErr. -/
def exTieDB : DB :=
  { environments := [], errors := [exOldErr], nextEnvId := 1, nextErrId := 2 }

/-- Error data for a further record. -/
def exNewData : ErrorData :=
  { error_name := "new error", description := some "later"
    error_type := none, traceback := none, fix := none
    complexity := some "Medium", status := some "Open"
    tags := ["dict", "lookup"], environment_id := none }

/-- A variant of exTieDB whose stored record was created strictly
earlier, at time 3. -/
def exEarlyDB : DB :=
  { environments := []
    errors := [{ exOldErr with created_at := 3, updated_at := 3 }]
    nextEnvId := 1, nextErrId := 2 }

/-- A stored row whose tags cell holds text that is not valid JSON. -/
def exBadRow : ErrRow :=
  { id := 1, error_name := "E", description := some "d"
    error_type := none, traceback := none, fix := none
    complexity := some "Low", status := some "Open"
    tags := some "not json", environment_id := some 1
    created_at := 0, updated_at := 0 }

/-- A database holding the malformed-tags row. -/
def exBadDB : DB :=
  { environments := [], errors := [exBadRow], nextEnvId := 1, nextErrId := 2 }

/-- The same database with the tags cell NULL instead of malformed. -/
def exNullDB : DB :=
  { environments := [], errors := [{ exBadRow with tags := none }]
    nextEnvId := 1, nextErrId := 2 }

/-- A listed record named abc with no description, used against the
search term a.c. -/
def exC8Row : AllRow :=
  { id := 1, error_name := "abc", description := none
    error_type := none, traceback := none, fix := none
    complexity := some "Low", status := some "Open", tags := []
    created_at := 0, updated_at := 0
    python_version := none, platform := none }

/-- Two environment rows with different ids but identical version and
platform metadata. -/
def exEnvA : EnvRow :=
  { id := 1, python_version := "3.11.4", platform := some "linux"
    modules := some "m1", created_at := 0 }

/-- See exEnvA. -/
def exEnvB : EnvRow :=
  { id := 2, python_version := "3.11.4", platform := some "linux"
    modules := some "m2", created_at := 0 }

/-- An error row pointing at exEnvA. -/
def exC10Err1 : ErrRow :=
  { exOldErr with environment_id := some 1 }

/-- The same row pointing at exEnvB instead. -/
def exC10Err2 : ErrRow :=
  { exOldErr with environment_id := some 2 }

end ErrorLogger

namespace ErrorLogger

/-! ### Helper lemmas -/

theorem find?_append_none {α : Type} (p : α → Bool) (l1 l2 : List α)
    (h : l1.find? p = none) : (l1 ++ l2).find? p = l2.find? p := by
  induction l1 with
  | nil => rfl
  | cons a t ih =>
    rw [List.find?_cons] at h
    cases hpa : p a with
    | true => simp [hpa] at h
    | false =>
      rw [hpa] at h
      simp only [List.cons_append, List.find?_cons, hpa]
      exact ih h

/-- A second resolve-or-create call with the same (version, modules) pair
returns the id of the first call and leaves the database untouched. -/
theorem goce_stable (db : DB) (t1 t2 : Nat) (info1 info2 : EnvInfo)
    (hv : info2.python_version = info1.python_version)
    (hm : info2.modules = info1.modules) :
    get_or_create_environment info2 t2 (get_or_create_environment info1 t1 db).2
      = ((get_or_create_environment info1 t1 db).1,
         (get_or_create_environment info1 t1 db).2) := by
  unfold get_or_create_environment
  rw [hv, hm]
  cases hfind : db.environments.find? (envMatches info1.python_version info1.modules) with
  | some r => simp [hfind]
  | none => simp [hfind, List.find?_append, envMatches]

/-- C1: for every snapshot, calling get_or_create_environment twice with
an identical (python_version, encoded module-set) pair returns the same
environment id both times, and the second call does not insert a row (it
leaves the whole database unchanged). -/
theorem spec_c1_resolve_or_create_idempotent
    (db : DB) (t1 t2 : Nat) (info1 info2 : EnvInfo)
    (hv : info2.python_version = info1.python_version)
    (hm : info2.modules = info1.modules) :
    get_or_create_environment info2 t2 (get_or_create_environment info1 t1 db).2
      = ((get_or_create_environment info1 t1 db).1,
         (get_or_create_environment info1 t1 db).2) :=
  goce_stable db t1 t2 info1 info2 hv hm

/-- C1 witness: the guarantee evaluated on a fresh database and a
concrete snapshot. -/
theorem spec_c1_witness :
    get_or_create_environment exInfo 2 (get_or_create_environment exInfo 1 init_db).2
      = ((get_or_create_environment exInfo 1 init_db).1,
         (get_or_create_environment exInfo 1 init_db).2) :=
  spec_c1_resolve_or_create_idempotent init_db 1 2 exInfo exInfo rfl rfl

/-- C5: the (python_version, modules) uniqueness invariant of the
environments table holds initially and is preserved by every
state-changing data-access operation (get_or_create_environment inserts
only when no row matches; save_error does not touch the table; the two
listing operations read only). -/
theorem spec_c5_env_uniqueness_invariant :
    EnvUniq init_db ∧
    (∀ db info t, EnvUniq db → EnvUniq (get_or_create_environment info t db).2) ∧
    (∀ db d t, EnvUniq db → EnvUniq (save_error d t db)) := by
  refine ⟨List.Pairwise.nil, ?_, ?_⟩
  · intro db info t h
    unfold get_or_create_environment
    cases hfind : db.environments.find? (envMatches info.python_version info.modules) with
    | some r => exact h
    | none =>
      have hall := List.find?_eq_none.mp hfind
      unfold EnvUniq at h ⊢
      apply List.pairwise_append.mpr
      refine ⟨h, List.pairwise_singleton _ _, ?_⟩
      intro a ha b hb
      simp only [List.mem_singleton] at hb
      subst hb
      intro hc
      exact hall a ha (by simp [envMatches, hc.1, hc.2])
  · intro db d t h
    exact h

/-- C5 witness: the invariant evaluated after one insertion into a fresh
database. -/
theorem spec_c5_witness :
    EnvUniq (get_or_create_environment exInfo 1 init_db).2 :=
  spec_c5_env_uniqueness_invariant.2.1 init_db exInfo 1 List.Pairwise.nil

/-- C6: for two snapshots identical in (version, modules) but differing
in platform, starting from a table with no matching row, the first call
appends exactly one row carrying the first snapshot's platform, and the
second call changes nothing and returns the same id, so the row keeps the
platform recorded first. -/
theorem spec_c6_platform_first_write_wins
    (db : DB) (t1 t2 : Nat) (info1 info2 : EnvInfo)
    (hv : info2.python_version = info1.python_version)
    (hm : info2.modules = info1.modules)
    (hnone : db.environments.find? (envMatches info1.python_version info1.modules) = none) :
    (get_or_create_environment info1 t1 db).2.environments
      = db.environments ++
        [{ id := db.nextEnvId
           python_version := info1.python_version
           platform := some info1.platform
           modules := some info1.modules
           created_at := t1 }] ∧
    get_or_create_environment info2 t2 (get_or_create_environment info1 t1 db).2
      = ((get_or_create_environment info1 t1 db).1,
         (get_or_create_environment info1 t1 db).2) := by
  constructor
  · unfold get_or_create_environment
    rw [hnone]
  · exact goce_stable db t1 t2 info1 info2 hv hm

/-- C6 witness: evaluated on a fresh database with two platform-differing
snapshots. -/
theorem spec_c6_witness :
    (get_or_create_environment exInfo 1 init_db).2.environments
      = init_db.environments ++
        [{ id := init_db.nextEnvId
           python_version := exInfo.python_version
           platform := some exInfo.platform
           modules := some exInfo.modules
           created_at := 1 }] ∧
    get_or_create_environment exInfo2 2 (get_or_create_environment exInfo 1 init_db).2
      = ((get_or_create_environment exInfo 1 init_db).1,
         (get_or_create_environment exInfo 1 init_db).2) :=
  spec_c6_platform_first_write_wins init_db 1 2 exInfo exInfo2 rfl rfl rfl

/-! ### Stable-sort lemmas -/

section SortLemmas

variable {α : Type} (r : α → α → Prop) [DecidableRel r]

theorem orderedInsert_cons_of_rel (a : α) (l : List α)
    (h : ∀ x, x ∈ l → r a x) : List.orderedInsert r a l = a :: l := by
  cases l with
  | nil => rfl
  | cons b t => exact List.orderedInsert_of_le r t (h b (List.mem_cons_self b t))

theorem filter_orderedInsert [IsTrans α r] (p : α → Bool) (a : α) :
    ∀ l : List α, List.Sorted r l →
      (List.orderedInsert r a l).filter p
        = if p a then List.orderedInsert r a (l.filter p) else l.filter p := by
  intro l
  induction l with
  | nil =>
    intro _
    simp [List.filter]
    cases hpa : p a <;> simp [hpa, List.filter]
  | cons b t ih =>
    intro hs
    have ht := List.Sorted.of_cons hs
    rw [List.orderedInsert]
    by_cases hab : r a b
    · rw [if_pos hab]
      cases hpa : p a with
      | true =>
        cases hpb : p b with
        | true =>
          simp only [List.filter_cons, hpa, hpb, if_true]
          rw [List.orderedInsert, if_pos hab]
        | false =>
          simp only [List.filter_cons, hpa, hpb, if_true, Bool.false_eq_true, if_false]
          rw [orderedInsert_cons_of_rel r a (t.filter p)
            (fun x hx => Trans.trans hab
              (List.rel_of_sorted_cons hs x (List.mem_of_mem_filter hx)))]
      | false =>
        simp only [List.filter_cons, hpa, Bool.false_eq_true, if_false]
    · rw [if_neg hab]
      cases hpb : p b with
      | true =>
        simp only [List.filter_cons, hpb, if_true, ih ht]
        cases hpa : p a with
        | true =>
          simp only [hpa, if_true]
          rw [List.orderedInsert, if_neg hab]
        | false =>
          simp only [hpa, Bool.false_eq_true, if_false]
      | false =>
        simp only [List.filter_cons, hpb, Bool.false_eq_true, if_false, ih ht]

theorem filter_insertionSort [IsTotal α r] [IsTrans α r] (p : α → Bool) :
    ∀ l : List α,
      (List.insertionSort r l).filter p = List.insertionSort r (l.filter p) := by
  intro l
  induction l with
  | nil => rfl
  | cons a t ih =>
    rw [List.insertionSort,
      filter_orderedInsert r p a _ (List.sorted_insertionSort r t), ih]
    cases hpa : p a with
    | true =>
      rw [if_pos rfl, List.filter_cons_of_pos hpa, List.insertionSort]
    | false =>
      rw [if_neg (by simp), List.filter_cons_of_neg (by simp [hpa])]

theorem insertionSort_append_newest (a : α) :
    ∀ l : List α, (∀ x, x ∈ l → ¬ r x a) →
      List.insertionSort r (l ++ [a]) = a :: List.insertionSort r l := by
  intro l
  induction l with
  | nil => intro _; rfl
  | cons x t ih =>
    intro h
    rw [List.cons_append, List.insertionSort,
      ih (fun y hy => h y (List.mem_cons_of_mem x hy)),
      List.orderedInsert, if_neg (h x (List.mem_cons_self x t)), List.insertionSort]

theorem forall₂_orderedInsert (S : α → α → Prop)
    (hcompat : ∀ x y u v, S x y → S u v → (r x u ↔ r y v))
    (a b : α) (hab : S a b) :
    ∀ l1 l2 : List α, List.Forall₂ S l1 l2 →
      List.Forall₂ S (List.orderedInsert r a l1) (List.orderedInsert r b l2) := by
  intro l1 l2 hf
  induction hf with
  | nil => exact List.Forall₂.cons hab List.Forall₂.nil
  | @cons x y t1 t2 hxy htail ih =>
    rw [List.orderedInsert, List.orderedInsert]
    by_cases hax : r a x
    · rw [if_pos hax, if_pos ((hcompat a b x y hab hxy).mp hax)]
      exact List.Forall₂.cons hab (List.Forall₂.cons hxy htail)
    · rw [if_neg hax, if_neg (fun hc => hax ((hcompat a b x y hab hxy).mpr hc))]
      exact List.Forall₂.cons hxy ih

theorem forall₂_insertionSort (S : α → α → Prop)
    (hcompat : ∀ x y u v, S x y → S u v → (r x u ↔ r y v)) :
    ∀ l1 l2 : List α, List.Forall₂ S l1 l2 →
      List.Forall₂ S (List.insertionSort r l1) (List.insertionSort r l2) := by
  intro l1 l2 hf
  induction hf with
  | nil => exact List.Forall₂.nil
  | cons hxy htail ih =>
    rw [List.insertionSort, List.insertionSort]
    exact forall₂_orderedInsert r S hcompat _ _ hxy _ _ ih

end SortLemmas

/-! ### optionMapList lemmas -/

theorem optionMapList_congr {α β : Type} (f g : α → Option β) :
    ∀ l : List α, (∀ x, x ∈ l → f x = g x) →
      optionMapList f l = optionMapList g l := by
  intro l
  induction l with
  | nil => intro _; rfl
  | cons x t ih =>
    intro h
    rw [optionMapList, optionMapList, h x (List.mem_cons_self x t),
      ih (fun y hy => h y (List.mem_cons_of_mem x hy))]

theorem optionMapList_eq_some {α β : Type} (f : α → Option β) (g : α → β) :
    ∀ l : List α, (∀ x, x ∈ l → f x = some (g x)) →
      optionMapList f l = some (l.map g) := by
  intro l
  induction l with
  | nil => intro _; rfl
  | cons x t ih =>
    intro h
    rw [optionMapList, h x (List.mem_cons_self x t),
      ih (fun y hy => h y (List.mem_cons_of_mem x hy)), List.map_cons]

theorem optionMapList_forall₂ {α β : Type} (f : α → Option β) (S : α → α → Prop)
    (hf : ∀ x y, S x y → f x = f y) :
    ∀ l1 l2 : List α, List.Forall₂ S l1 l2 →
      optionMapList f l1 = optionMapList f l2 := by
  intro l1 l2 h
  induction h with
  | nil => rfl
  | cons hxy _ ih => rw [optionMapList, optionMapList, hf _ _ hxy, ih]

/-! ### Round-trip of the tags serialization -/

theorem skipWs_cons_of_not (c : Char) (l : List Char) (h : jsonWs c = false) :
    skipWs (c :: l) = c :: l := by
  simp [skipWs, List.dropWhile_cons, h]

theorem parseStr_escList : ∀ cs rest : List Char,
    parseStr (escList cs ++ ('"' :: rest)) = some (cs, rest) := by
  intro cs
  induction cs with
  | nil =>
    intro rest
    simp only [escList, List.nil_append]
    rw [parseStr.eq_def]
    simp
  | cons c t ih =>
    intro rest
    rw [escList, List.append_assoc]
    unfold escapeChar
    by_cases h1 : c = '"'
    · subst h1; rw [if_pos rfl, List.cons_append, List.cons_append,
        parseStr.eq_def]; simp [unescapeChar, ih]
    · rw [if_neg h1]
      by_cases h2 : c = '\\'
      · subst h2; rw [if_pos rfl, List.cons_append, List.cons_append,
          parseStr.eq_def]; simp [unescapeChar, ih]
      · rw [if_neg h2]
        by_cases h3 : c = '\n'
        · subst h3; rw [if_pos rfl, List.cons_append, List.cons_append,
            parseStr.eq_def]; simp [unescapeChar, ih]
        · rw [if_neg h3]
          by_cases h4 : c = '\t'
          · subst h4; rw [if_pos rfl, List.cons_append, List.cons_append,
              parseStr.eq_def]; simp [unescapeChar, ih]
          · rw [if_neg h4]
            by_cases h5 : c = '\r'
            · subst h5; rw [if_pos rfl, List.cons_append, List.cons_append,
                parseStr.eq_def]; simp [unescapeChar, ih]
            · rw [if_neg h5]
              by_cases h6 : c = '\x08'
              · subst h6; rw [if_pos rfl, List.cons_append, List.cons_append,
                  parseStr.eq_def]; simp [unescapeChar, ih]
              · rw [if_neg h6]
                by_cases h7 : c = '\x0C'
                · subst h7; rw [if_pos rfl, List.cons_append, List.cons_append,
                    parseStr.eq_def]; simp [unescapeChar, ih]
                · rw [if_neg h7, List.cons_append, parseStr.eq_def]
                  simp [h1, h2, ih]

theorem parseItems_succ_ws (f : Nat) (cs : List Char) :
    parseItems (f + 1) (' ' :: cs) = parseItems (f + 1) cs := by
  rw [parseItems, parseItems]
  have h : skipWs (' ' :: cs) = skipWs cs := by
    simp [skipWs, List.dropWhile_cons, jsonWs]
  rw [h]

theorem encStr_append (t : String) (X : List Char) :
    encStr t ++ X = '"' :: (escList t.data ++ ('"' :: X)) := by
  simp [encStr]

theorem parseItems_enc : ∀ ts : List String, ts ≠ [] → ∀ fuel, ts.length ≤ fuel →
    ∀ rest, parseItems fuel (encItems ts ++ (']' :: rest))
      = some (ts.map String.data, rest) := by
  intro ts
  induction ts with
  | nil => intro h; exact absurd rfl h
  | cons t ts ih =>
    intro _ fuel hf rest
    cases ts with
    | nil =>
      cases fuel with
      | zero => exact absurd hf (by simp)
      | succ f =>
        simp only [encItems]
        rw [encStr_append, parseItems, skipWs_cons_of_not '"' _ rfl]
        simp [parseStr_escList, skipWs_cons_of_not, jsonWs]
    | cons t2 ts2 =>
      cases fuel with
      | zero => exact absurd hf (by simp)
      | succ f =>
        have hlen : (t2 :: ts2).length ≤ f := by
          simpa [Nat.succ_le_succ_iff] using hf
        have hf1 : 1 ≤ f := le_trans (by simp) hlen
        obtain ⟨f2, rfl⟩ : ∃ f2, f = f2 + 1 :=
          ⟨f - 1, by omega⟩
        simp only [encItems]
        rw [List.append_assoc, encStr_append, parseItems,
          skipWs_cons_of_not '"' _ rfl]
        have hrec := ih (by simp) (f2 + 1) hlen rest
        simp [parseStr_escList, skipWs_cons_of_not, jsonWs,
          parseItems_succ_ws, hrec]

theorem encItems_length_le : ∀ ts : List String,
    ts.length ≤ (encItems ts).length + 1
  | [] => by simp [encItems]
  | [_] => by simp [encItems]
  | t :: t2 :: ts2 => by
    have ih := encItems_length_le (t2 :: ts2)
    simp only [encItems, List.length_append, List.length_cons] at ih ⊢
    omega

theorem decodeTags_encodeTags : ∀ ts : List String,
    decodeTags (encodeTags ts) = some ts := by
  intro ts
  cases ts with
  | nil => rfl
  | cons t ts2 =>
    have hne : (t :: ts2) ≠ [] := by simp
    have hhead : ∃ tl, encItems (t :: ts2) = '"' :: tl := by
      cases ts2 with
      | nil => exact ⟨escList t.data ++ ['"'], rfl⟩
      | cons a b =>
        refine ⟨(escList t.data ++ ['"']) ++ (',' :: ' ' :: encItems (a :: b)), ?_⟩
        simp [encItems, encStr]
    obtain ⟨tl, htl⟩ := hhead
    have hbound : (t :: ts2).length ≤ (encItems (t :: ts2) ++ [']']).length + 1 := by
      have h1 := encItems_length_le (t :: ts2)
      simp only [List.length_append, List.length_cons, List.length_nil] at h1 ⊢
      omega
    have hitems := parseItems_enc (t :: ts2) hne
      ((encItems (t :: ts2) ++ [']']).length + 1) hbound []
    have hsk : skipWs (encItems (t :: ts2) ++ [']'])
        = '"' :: (tl ++ [']']) := by
      rw [htl, List.cons_append]
      exact skipWs_cons_of_not '"' _ rfl
    unfold decodeTags encodeTags
    rw [show (String.mk ('[' :: (encItems (t :: ts2) ++ [']']))).data
        = '[' :: (encItems (t :: ts2) ++ [']']) from rfl]
    rw [skipWs_cons_of_not '[' _ rfl]
    simp only [hsk]
    rw [hitems]
    have hcomp : ((fun l => String.mk l) ∘ String.data) = id := funext fun _ => rfl
    simp [skipWs, List.map_map, hcomp]

/-- The tags cell written by save_error always reads back as the list that
was supplied. -/
theorem decodeTagsField_save (ts : List String) :
    decodeTagsField (if ts = [] then none else some (encodeTags ts)) = some ts := by
  by_cases h : ts = []
  · rw [if_pos h, h]; rfl
  · rw [if_neg h]
    have hne : ¬ encodeTags ts = "" := by
      intro hc
      have := congrArg String.data hc
      simp [encodeTags] at this
    show (if encodeTags ts = "" then some [] else decodeTags (encodeTags ts)) = some ts
    rw [if_neg hne]
    exact decodeTags_encodeTags ts

/-- A well-formed tags cell always decodes. -/
theorem decodeTagsField_isSome_of_wf (r : ErrRow) (h : WfTags r) :
    (decodeTagsField r.tags).isSome := by
  rcases h with h | ⟨ts, hts⟩
  · rw [h]; rfl
  · rw [hts]
    show (if encodeTags ts = "" then some [] else decodeTags (encodeTags ts)).isSome = true
    by_cases he : encodeTags ts = ""
    · rw [if_pos he]; rfl
    · rw [if_neg he, decodeTags_encodeTags]; rfl

theorem optionMapList_isSome {α β : Type} (f : α → Option β) :
    ∀ l : List α, (∀ x, x ∈ l → (f x).isSome) →
      ∃ ys, optionMapList f l = some ys := by
  intro l
  induction l with
  | nil => intro _; exact ⟨[], rfl⟩
  | cons x t ih =>
    intro h
    obtain ⟨y, hy⟩ := Option.isSome_iff_exists.mp (h x (List.mem_cons_self x t))
    obtain ⟨ys, hys⟩ := ih (fun z hz => h z (List.mem_cons_of_mem x hz))
    exact ⟨y :: ys, by rw [optionMapList, hy, hys]⟩

/-! ### Per-claim theorems for the repository queries -/

/-- Each get_errors_by_environment result row is the projection of the
corresponding get_all_errors row with the joined columns dropped. -/
theorem byEnvRowOf_eq_strip (envs : List EnvRow) (r : ErrRow) :
    byEnvRowOf r = (allRowOf envs r).map stripEnvMeta := by
  unfold byEnvRowOf allRowOf
  cases decodeTagsField r.tags <;> rfl

/-- C7: get_errors_by_environment e is exactly get_all_errors restricted
to the rows whose environment_id equals e — the same newest-first order
over the same underlying rows, the same per-row tag deserialization, with
only the two joined environment columns dropped; and get_all_errors is
the full newest-first projection. -/
theorem spec_c7_by_environment_is_subset (db : DB) (e : Nat) :
    get_errors_by_environment e db
      = optionMapList (fun r => (allRowOf db.environments r).map stripEnvMeta)
          ((sortErrors db.errors).filter (fun r => decide (r.environment_id = some e)))
    ∧ get_all_errors db
      = optionMapList (allRowOf db.environments) (sortErrors db.errors) := by
  constructor
  · unfold get_errors_by_environment
    unfold sortErrors
    rw [← filter_insertionSort errRel _ db.errors]
    exact optionMapList_congr _ _ _
      (fun x _ => byEnvRowOf_eq_strip db.environments x)
  · rfl

/-- C4 (code evaluated at the failing input): a single row whose tags cell
holds the non-JSON text "not json" makes both listing operations abort
(json.loads raises), instead of being treated as an empty tag list — while
the same row with a NULL tags cell lists fine with no tags. -/
theorem spec_c4_malformed_tags_abort :
    get_all_errors exBadDB = none ∧
    get_errors_by_environment 1 exBadDB = none ∧
    get_all_errors exNullDB
      = some [{ id := 1, error_name := "E", description := some "d"
                error_type := none, traceback := none, fix := none
                complexity := some "Low", status := some "Open", tags := []
                created_at := 0, updated_at := 0
                python_version := none, platform := none }] := by
  refine ⟨rfl, rfl, rfl⟩

/-- C3: submitting the Log Error form with an empty (or absent) name or
description fails validation and performs no write at all: the database —
in particular the errors table — is returned unchanged. -/
theorem spec_c3_validation_blocks_save
    (f : FormInput) (envId : Option Nat) (now : Nat) (db : DB)
    (h : f.error_name = "" ∨ f.description = "") :
    log_error_submit f envId now db = (false, db) := by
  unfold log_error_submit
  rw [if_pos h]

/-- C3 witness: a concrete blank-name submission against a fresh
database. -/
theorem spec_c3_witness :
    log_error_submit
      { error_name := "", error_type := "", complexity := "Low"
        status := "Open", tags_input := "", description := "some text"
        traceback := "", fix := "" } none 7 init_db = (false, init_db) :=
  spec_c3_validation_blocks_save _ none 7 init_db (Or.inl rfl)

/-! ### C2: save followed by list_all -/

/-- C2 counterexample: the claim as stated fails at a timestamp tie.  The
stored record of exTieDB has created_at = 5 — not later than the save time
5, so by the claim the freshly saved record should list first; but the
listing (ORDER BY created_at DESC, ties in table order) surfaces the older
record first. -/
theorem spec_c2_counterexample :
    (∀ r, r ∈ exTieDB.errors → r.created_at ≤ 5) ∧
    ((get_all_errors (save_error exNewData 5 exTieDB)).bind List.head?).map
        AllRow.error_name = some "old error" ∧
    exNewData.error_name = "new error" := by
  refine ⟨by decide, by decide, rfl⟩

/-- C2 (amended): if every already-stored record was created strictly
earlier than the save time, and the stored tag cells are save_error-shaped
(NULL or serialized), then list_all returns the saved record first, with
every supplied field unchanged: name, description, error_type, traceback,
fix, complexity, the supplied status (Open being the default when absent),
the tags as the very sequence supplied, and the environment association
surfacing as the joined python_version/platform of the environment whose
id was supplied. -/
theorem spec_c2_save_roundtrip (db : DB) (d : ErrorData) (now : Nat)
    (hlt : ∀ r, r ∈ db.errors → r.created_at < now)
    (hwf : ∀ r, r ∈ db.errors → WfTags r) :
    ∃ rest, get_all_errors (save_error d now db)
      = some ({ id := db.nextErrId
                error_name := d.error_name
                description := d.description
                error_type := d.error_type
                traceback := d.traceback
                fix := d.fix
                complexity := d.complexity
                status := some (d.status.getD "Open")
                tags := d.tags
                created_at := now
                updated_at := now
                python_version :=
                  (lookupEnv db.environments d.environment_id).map EnvRow.python_version
                platform :=
                  (lookupEnv db.environments d.environment_id).bind EnvRow.platform }
              :: rest) := by
  have hsorted : sortErrors (db.errors ++
      [{ id := db.nextErrId
         error_name := d.error_name
         description := d.description
         error_type := d.error_type
         traceback := d.traceback
         fix := d.fix
         complexity := d.complexity
         status := some (d.status.getD "Open")
         tags := if d.tags = [] then none else some (encodeTags d.tags)
         environment_id := d.environment_id
         created_at := now
         updated_at := now }])
      = { id := db.nextErrId
          error_name := d.error_name
          description := d.description
          error_type := d.error_type
          traceback := d.traceback
          fix := d.fix
          complexity := d.complexity
          status := some (d.status.getD "Open")
          tags := if d.tags = [] then none else some (encodeTags d.tags)
          environment_id := d.environment_id
          created_at := now
          updated_at := now } :: sortErrors db.errors :=
    insertionSort_append_newest errRel _ db.errors
      (fun x hx hc => absurd (hlt x hx) (Nat.not_lt.mpr hc))
  obtain ⟨ys, hys⟩ := optionMapList_isSome (allRowOf db.environments)
    (sortErrors db.errors)
    (fun x hx => by
      have hd := decodeTagsField_isSome_of_wf x
        (hwf x ((List.perm_insertionSort errRel db.errors).mem_iff.mp hx))
      unfold allRowOf
      cases hcase : decodeTagsField x.tags with
      | none => rw [hcase] at hd; exact absurd hd (by simp)
      | some tg => rfl)
  refine ⟨ys, ?_⟩
  unfold get_all_errors save_error
  rw [hsorted, optionMapList]
  have hhead : allRowOf db.environments
      { id := db.nextErrId
        error_name := d.error_name
        description := d.description
        error_type := d.error_type
        traceback := d.traceback
        fix := d.fix
        complexity := d.complexity
        status := some (d.status.getD "Open")
        tags := if d.tags = [] then none else some (encodeTags d.tags)
        environment_id := d.environment_id
        created_at := now
        updated_at := now }
      = some { id := db.nextErrId
               error_name := d.error_name
               description := d.description
               error_type := d.error_type
               traceback := d.traceback
               fix := d.fix
               complexity := d.complexity
               status := some (d.status.getD "Open")
               tags := d.tags
               created_at := now
               updated_at := now
               python_version :=
                 (lookupEnv db.environments d.environment_id).map EnvRow.python_version
               platform :=
                 (lookupEnv db.environments d.environment_id).bind EnvRow.platform } := by
    unfold allRowOf
    rw [show ({ id := db.nextErrId
                error_name := d.error_name
                description := d.description
                error_type := d.error_type
                traceback := d.traceback
                fix := d.fix
                complexity := d.complexity
                status := some (d.status.getD "Open")
                tags := if d.tags = [] then none else some (encodeTags d.tags)
                environment_id := d.environment_id
                created_at := now
                updated_at := now } : ErrRow).tags
        = (if d.tags = [] then none else some (encodeTags d.tags)) from rfl]
    rw [decodeTagsField_save]
    rfl
  rw [hhead, hys]

/-- C2 witness: the amended statement evaluated at a database whose only
record is older (time 3) than the save time 5. -/
theorem spec_c2_witness :
    ∃ rest, get_all_errors (save_error exNewData 5 exEarlyDB)
      = some ({ id := 2, error_name := "new error", description := some "later"
                error_type := none, traceback := none, fix := none
                complexity := some "Medium", status := some "Open"
                tags := ["dict", "lookup"], created_at := 5, updated_at := 5
                python_version := none, platform := none } :: rest) :=
  spec_c2_save_roundtrip exEarlyDB exNewData 5 (by decide)
    (fun r hr => by
      simp only [exEarlyDB, List.mem_singleton] at hr
      subst hr
      exact Or.inl rfl)

/-! ### C9: determinism of the module-set encoding -/

/-- A pairwise-nondecreasing key list with no duplicate keys is pairwise
strictly increasing. -/
theorem sorted_keyLt_of_sorted_nodup (l : List (String × String))
    (hs : List.Sorted keyRel l) (hnd : (l.map Prod.fst).Nodup) :
    List.Sorted keyLt l := by
  have hne : l.Pairwise (fun a b : String × String => a.1 ≠ b.1) :=
    List.pairwise_map.mp hnd
  exact (hs.and hne).imp (fun h => lt_of_le_of_ne h.1 h.2)

/-- C9: the module-set encoding is enumeration-order independent — any two
orderings of the same duplicate-free package-name-to-version mapping
produce byte-identical encodings, so two snapshots of the same version and
module set carry equal modules strings into the registry lookup. -/
theorem spec_c9_encoding_deterministic (l1 l2 : List (String × String))
    (pv p1 p2 : String) (hperm : l1.Perm l2)
    (hnd : (l1.map Prod.fst).Nodup) :
    encodeModules l1 = encodeModules l2 ∧
    (get_current_environment pv p1 l1).modules
      = (get_current_environment pv p2 l2).modules := by
  have hnd2 : (l2.map Prod.fst).Nodup := ((hperm.map Prod.fst).nodup_iff).mp hnd
  have hp : List.Perm (List.insertionSort keyRel l1) (List.insertionSort keyRel l2) :=
    (List.perm_insertionSort keyRel l1).trans
      (hperm.trans (List.perm_insertionSort keyRel l2).symm)
  have hnds1 : ((List.insertionSort keyRel l1).map Prod.fst).Nodup :=
    (((List.perm_insertionSort keyRel l1).map Prod.fst).nodup_iff).mpr hnd
  have hnds2 : ((List.insertionSort keyRel l2).map Prod.fst).Nodup :=
    (((List.perm_insertionSort keyRel l2).map Prod.fst).nodup_iff).mpr hnd2
  have hsort : List.insertionSort keyRel l1 = List.insertionSort keyRel l2 :=
    List.eq_of_perm_of_sorted hp
      (sorted_keyLt_of_sorted_nodup _ (List.sorted_insertionSort keyRel l1) hnds1)
      (sorted_keyLt_of_sorted_nodup _ (List.sorted_insertionSort keyRel l2) hnds2)
  constructor
  · unfold encodeModules
    rw [hsort]
  · unfold get_current_environment encodeModules
    rw [hsort]

/-- C9 witness: the two enumeration orders of a concrete two-package
mapping encode identically. -/
theorem spec_c9_witness :
    encodeModules [("pandas", "2.0.1"), ("numpy", "1.24")]
      = encodeModules [("numpy", "1.24"), ("pandas", "2.0.1")] ∧
    (get_current_environment "3.11.4" "linux"
        [("pandas", "2.0.1"), ("numpy", "1.24")]).modules
      = (get_current_environment "3.11.4" "win32"
        [("numpy", "1.24"), ("pandas", "2.0.1")]).modules :=
  spec_c9_encoding_deterministic _ _ "3.11.4" "linux" "win32"
    (List.Perm.swap ("numpy", "1.24") ("pandas", "2.0.1") [])
    (by decide)

/-! ### C10: the environment id itself is not part of the listing -/

/-- C10: get_all_errors exposes the joined python_version and platform
columns but not the environment_id column: two error tables that agree on
every stored column except environment_id, and whose referenced
environments carry identical (python_version, platform) metadata, produce
identical get_all_errors output — the numeric association is not
observable from the listing. -/
theorem spec_c10_environment_id_not_observable
    (envs : List EnvRow) (l1 l2 : List ErrRow) (a b : Nat)
    (h : List.Forall₂
      (fun r1 r2 => SameButEnv r1 r2 ∧
        envMetaOf envs r1.environment_id = envMetaOf envs r2.environment_id)
      l1 l2) :
    get_all_errors { environments := envs, errors := l1, nextEnvId := a, nextErrId := b }
      = get_all_errors { environments := envs, errors := l2, nextEnvId := a, nextErrId := b } := by
  unfold get_all_errors sortErrors
  apply optionMapList_forall₂ (allRowOf envs)
    (fun r1 r2 => SameButEnv r1 r2 ∧
      envMetaOf envs r1.environment_id = envMetaOf envs r2.environment_id)
  · intro x y hxy
    obtain ⟨⟨h1, h2, h3, h4, h5, h6, h7, h8, h9, h10, h11⟩, hm⟩ := hxy
    unfold envMetaOf at hm
    rw [Prod.mk.injEq] at hm
    obtain ⟨hpv, hpl⟩ := hm
    unfold allRowOf
    rw [h9]
    congr 1
    funext tg
    rw [h1, h2, h3, h4, h5, h6, h7, h8, h10, h11, hpv, hpl]
  · exact forall₂_insertionSort errRel _
      (fun x y u v hxy huv => by
        rw [errRel, errRel, hxy.1.2.2.2.2.2.2.2.2.2.1, huv.1.2.2.2.2.2.2.2.2.2.1])
      l1 l2 h

/-- C10 witness: pointing the same record at either of two distinct
environments with identical metadata yields identical listings. -/
theorem spec_c10_witness :
    get_all_errors
      { environments := [exEnvA, exEnvB], errors := [exC10Err1]
        nextEnvId := 3, nextErrId := 2 }
      = get_all_errors
      { environments := [exEnvA, exEnvB], errors := [exC10Err2]
        nextEnvId := 3, nextErrId := 2 } :=
  spec_c10_environment_id_not_observable [exEnvA, exEnvB]
    [exC10Err1] [exC10Err2] 3 2
    (List.Forall₂.cons ⟨by unfold SameButEnv; decide, by decide⟩ List.Forall₂.nil)

/-! ### C8: the Search and Filter page -/

/-- An empty pattern matches every text. -/
theorem regexSearch_nil_pat : ∀ l : List Char, regexSearch [] l = true := by
  intro l
  cases l with
  | nil => rfl
  | cons c cs => rfl

/-- The empty search term matches every string. -/
theorem strContainsCI_empty (s : String) : strContainsCI s "" = true := by
  unfold strContainsCI
  rw [show patOf "" = [] from rfl]
  exact regexSearch_nil_pat _

/-- C8 counterexample: the search term a.c is not a substring of the name
abc (and the record has no description), yet the filter keeps the record,
because pandas str.contains treats the term as a regular expression in
which the dot matches any character.  The status and complexity selections
are empty here, so by the claim the record should be kept exactly when the
substring condition holds — it does not, and the record is kept anyway. -/
theorem spec_c8_counterexample :
    applyFilters "a.c" [] [] [exC8Row] = [exC8Row] ∧
    ¬ specSubstrKeep "a.c" exC8Row := by
  constructor
  · decide
  · exact fun h => h.elim (fun h1 => absurd h1 (by decide)) (fun h2 => h2)

/-- C8 (amended): filtering keeps a record iff the search term, read as a
regular-expression pattern (the model covers literal characters and the
any-character dot) matches case-insensitively somewhere in the name or in
the non-null description, AND the status and complexity selections are
exact-membership tests in which an empty selection imposes no
restriction.  For terms without regex metacharacters the search clause
coincides with the claimed substring test. -/
theorem spec_c8_filter_semantics (term : String)
    (fStatus fComplexity : List String) (rows : List AllRow) :
    applyFilters term fStatus fComplexity rows
      = rows.filter (amendedKeep term fStatus fComplexity) := by
  simp only [applyFilters]
  split_ifs with h1 h2 h3 h4 h5 h6 h7 <;> repeat rw [List.filter_filter]
  all_goals simp only [ne_eq, not_not] at *
  all_goals
    first
      | (apply List.filter_congr
         intro x _
         simp [amendedKeep, strContainsCI_empty, Bool.and_comm,
           Bool.and_left_comm, Bool.and_assoc, *])
      | (refine (List.filter_eq_self.mpr fun a _ => ?_).symm
         simp [amendedKeep, strContainsCI_empty, *])

end ErrorLogger
